import Mathlib

/-!
Verification of the LegalAnalyzer document-processing system.

The frontend data model and rendering logic are embedded from
`frontend/src/types/document.ts`, `frontend/src/components/cases/DocumentQueue.tsx`,
`frontend/src/lib/api.ts` and `frontend/src/lib/api/documents.ts`.
The backend pipeline core (orchestrator state machine, chunking engine) has no
source under the repository snapshot, so those parts are modelled from the
specification (each such definition is marked `Modelled from the spec:`).
-/

namespace LegalAnalyzer

/-! ## Document status enum (`frontend/src/types/document.ts`, `DocumentStatus`) -/

/-- The `DocumentStatus` string enum from `types/document.ts`. -/
inductive DocumentStatus where
  | uploaded
  | detecting_type
  | extracting_blocks
  | classifying
  | analyzing_content
  | filtered_out
  | chunking
  | summarizing
  | completed
  | failed
deriving DecidableEq, Fintype, Repr

/-- The string value carried by each enum member (`UPLOADED = 'uploaded'`, ...). -/
def DocumentStatus.value : DocumentStatus → String
  | .uploaded => "uploaded"
  | .detecting_type => "detecting_type"
  | .extracting_blocks => "extracting_blocks"
  | .classifying => "classifying"
  | .analyzing_content => "analyzing_content"
  | .filtered_out => "filtered_out"
  | .chunking => "chunking"
  | .summarizing => "summarizing"
  | .completed => "completed"
  | .failed => "failed"

/-- All members of the enum, in declaration order. -/
def DocumentStatus.all : List DocumentStatus :=
  [.uploaded, .detecting_type, .extracting_blocks, .classifying, .analyzing_content,
   .filtered_out, .chunking, .summarizing, .completed, .failed]

/-- The ten status strings promised by the spec (§6, "exact set, stable contract"). -/
def specStatusValues : List String :=
  ["uploaded", "detecting_type", "extracting_blocks", "classifying", "analyzing_content",
   "filtered_out", "chunking", "summarizing", "completed", "failed"]

/-! ## Document record (`types/document.ts`, `interface Document`)

JS `number` fields that hold integers are modelled as `Nat`; the
`filter_confidence` field (a fractional score) is modelled as `Option Rat`;
`T | null` is modelled as `Option T`. -/

structure Document where
  id : Nat
  case_id : Nat
  filename : String
  file_type : String
  file_size : Nat
  minio_bucket : String
  minio_key : String
  status : DocumentStatus
  processing_error : Option String
  classification : Option String
  content_category : Option String
  filter_confidence : Option Rat
  filter_reasoning : Option String
  has_summary : Bool
  summarized_at : Option String
  created_at : String
  updated_at : String
deriving DecidableEq, Repr

/-- The five badge colors in `getStatusColor`'s return type. -/
inductive StatusColor where
  | success
  | warning
  | error
  | info
  | neutral
deriving DecidableEq, Repr

/-- `getStatusLabel` from `types/document.ts` (the record lookup always hits,
so the `|| status` fallback never fires for an enum member). -/
def getStatusLabel : DocumentStatus → String
  | .uploaded => "Uploaded"
  | .detecting_type => "Detecting Type"
  | .extracting_blocks => "Extracting Content"
  | .classifying => "Classifying"
  | .analyzing_content => "Analyzing"
  | .filtered_out => "Filtered Out"
  | .chunking => "Chunking"
  | .summarizing => "Summarizing"
  | .completed => "Completed"
  | .failed => "Failed"

/-- `getStatusColor` from `types/document.ts`, branch for branch. -/
def getStatusColor (status : DocumentStatus) : StatusColor :=
  if status = .completed then .success
  else if status = .failed then .error
  else if status = .filtered_out then .neutral
  else if status ∈ [DocumentStatus.extracting_blocks, .classifying, .analyzing_content,
                    .chunking, .summarizing] then .info
  else .warning

/-! ## DocumentQueue rendering logic (`components/cases/DocumentQueue.tsx`) -/

/-- JS truthiness of a `string | null | undefined` value: `null` and the empty
string are falsy, every other string is truthy. -/
def jsTruthyStr : Option String → Bool
  | none => false
  | some s => !(s == "")

/-- The per-document condition inside the auto-refresh effect
(`DocumentQueue.tsx` lines 47-51): the document still counts as processing. -/
def hasProcessingCond (s : DocumentStatus) : Bool :=
  !(s == .completed) && !(s == .failed) && !(s == .filtered_out)

/-- `documents.some (...)` in the auto-refresh effect: whether the 5-second
auto-refresh interval is installed. -/
def hasProcessing (docs : List Document) : Bool :=
  docs.any fun d => hasProcessingCond d.status

/-- The condition guarding the per-row "Processing..." spinner
(`DocumentQueue.tsx` lines 287-289). -/
def processingSpinnerCond (s : DocumentStatus) : Bool :=
  !(s == .completed) && !(s == .failed) && !(s == .filtered_out)

/-- The error box `{doc.processing_error && (... Error: {doc.processing_error})}`:
the rendered error text, when the box is shown at all. -/
def shownErrorText (d : Document) : Option String :=
  if jsTruthyStr d.processing_error then d.processing_error else none

/-- The filter-reasoning box
`{doc.filter_reasoning && doc.status === DocumentStatus.FILTERED_OUT && ...}`. -/
def rendersFilterReasoning (d : Document) : Bool :=
  jsTruthyStr d.filter_reasoning && (d.status == .filtered_out)

/-- The unit chosen by `formatFileSize` (`DocumentQueue.tsx` lines 62-66);
the numeric prefix (a floating-point `toFixed(1)` rendering) is not part of
any claim and is not modelled. -/
def formatFileSizeUnit (bytes : Nat) : String :=
  if bytes < 1024 then "B"
  else if bytes < 1024 * 1024 then "KB"
  else "MB"

/-- Spec §3: the two terminal absorbing states plus the early-exit absorbing
state — the statuses in which a document is no longer processing. -/
def isAbsorbingStatus (s : DocumentStatus) : Prop :=
  s = .completed ∨ s = .failed ∨ s = .filtered_out

instance (s : DocumentStatus) : Decidable (isAbsorbingStatus s) := by
  unfold isAbsorbingStatus; infer_instance

/-- A JS runtime value storable in a nullable error field: `null`, a plain
string, or a `{stage, message}` record (only the alternatives the data-model
contract distinguishes are modelled). -/
inductive ErrorFieldVal where
  | null
  | str (s : String)
  | record (stage message : String)
deriving DecidableEq, Repr

/-- The value space declared by the source type `processing_error: string | null`
(`types/document.ts` line 27). -/
def isCodeProcessingErrorVal : ErrorFieldVal → Bool
  | .null => true
  | .str _ => true
  | .record _ _ => false

/-- The value space the spec's words describe for `processing_error`
("nullable structured record: stage name + message") — the refinement target
to compare the source type against. -/
def isSpecProcessingErrorVal : ErrorFieldVal → Bool
  | .null => true
  | .str _ => false
  | .record _ _ => true

/-- The runtime value held by a document's `processing_error` field: `null`,
or the string itself. -/
def errorFieldVal (d : Document) : ErrorFieldVal :=
  match d.processing_error with
  | none => .null
  | some s => .str s

/-- A sample document used to evaluate the rendering logic on concrete
inputs; only `status`, `processing_error` and `filter_reasoning` vary. -/
def mkDoc (status : DocumentStatus) (err reasoning : Option String) : Document :=
  ⟨1, 1, "contract.pdf", "pdf", 2048, "documents", "1/original", status, err,
   none, none, none, reasoning, false, none, "2025-01-01", "2025-01-01"⟩

/-! ## Document list endpoint (`frontend/src/lib/api/documents.ts`, `documentsApi.list`) -/

/-- The decimal digit character for `d` (0-9; callers always pass `d < 10`). -/
def digitChar (d : Nat) : Char :=
  if d = 0 then '0' else if d = 1 then '1' else if d = 2 then '2'
  else if d = 3 then '3' else if d = 4 then '4' else if d = 5 then '5'
  else if d = 6 then '6' else if d = 7 then '7' else if d = 8 then '8' else '9'

/-- Fuel-driven decimal rendering of a natural number (fuel `n + 1` always
suffices, see `natStr`). -/
def natCharsAux : Nat → Nat → List Char
  | 0, _ => []
  | fuel + 1, n =>
    if n < 10 then [digitChar n]
    else natCharsAux fuel (n / 10) ++ [digitChar (n % 10)]

/-- JS template-literal rendering `${n}` of a non-negative integer. -/
def natStr (n : Nat) : String := ⟨natCharsAux (n + 1) n⟩

/-- The endpoint before the optional status parameter:
`/documents/?case_id=${caseId}&limit=${limit}&offset=${offset}`. -/
def listEndpointBase (caseId limit offset : Nat) : String :=
  "/documents/?case_id=" ++ natStr caseId ++ "&limit=" ++ natStr limit
    ++ "&offset=" ++ natStr offset

/-- `documentsApi.list`'s endpoint: the base, plus `&status=${status}` when
`if (status)` holds — i.e. when the status argument is defined and truthy
(non-empty). -/
def listEndpoint (caseId : Nat) (status : Option String) (limit offset : Nat) : String :=
  match status with
  | some s =>
      if s == "" then listEndpointBase caseId limit offset
      else listEndpointBase caseId limit offset ++ "&status=" ++ s
  | none => listEndpointBase caseId limit offset

/-- The endpoint produced when the caller relies on the declared defaults
`limit: number = 100, offset: number = 0`. -/
def listEndpointDefaults (caseId : Nat) (status : Option String) : String :=
  listEndpoint caseId status 100 0

/-- `needle` occurs as a contiguous substring of `hay`. -/
def containsStr (needle hay : String) : Prop :=
  ∃ p q : String, hay = p ++ needle ++ q

/-! ## API client response handling (`frontend/src/lib/api.ts`, `handleResponse`) -/

/-- A parsed JSON value, the result of a successful `response.json()`. -/
inductive JsonVal where
  | nullV
  | boolV (b : Bool)
  | numV (n : Int)
  | strV (s : String)
  | arrV (elems : List JsonVal)
  | objV (fields : List (String × JsonVal))

/-- JS truthiness of a parsed JSON value (`NaN` does not arise here since the
numeric case is an integer). -/
def jsTruthy : JsonVal → Bool
  | .nullV => false
  | .boolV b => b
  | .numV n => !(n == 0)
  | .strV s => !(s == "")
  | .arrV _ => true
  | .objV _ => true

/-- JS property access `v.key` on a parsed JSON value: a field of an object,
`undefined` (`none`) on other non-null values; access on `null` throws and is
handled by the caller's `catch`. -/
def getField (v : JsonVal) (key : String) : Option JsonVal :=
  match v with
  | .objV fields => fields.lookup key
  | _ => none

/-- JS `a || b` where `a` may be `undefined` (`none`). -/
def jsOrElse (a : Option JsonVal) (b : JsonVal) : JsonVal :=
  match a with
  | some v => if jsTruthy v then v else b
  | none => b

/-- The fields of a fetch `Response` that `handleResponse` reads; `jsonBody`
is the JSON parse of the body, `none` when the body is not valid JSON. -/
structure HttpResponse where
  ok : Bool
  status : Nat
  statusText : String
  jsonBody : Option JsonVal

/-- The fallback text `HTTP ${response.status}: ${response.statusText}`. -/
def defaultErrorMessage (r : HttpResponse) : String :=
  "HTTP " ++ natStr r.status ++ ": " ++ r.statusText

/-- The message chosen by the non-ok branch:
`errorData.detail || errorData.message || errorMessage`, evaluated inside the
`try` — when the body is not JSON, or parses to JSON `null` (on which property
access throws), the default message survives. -/
def selectedErrorMessage (r : HttpResponse) : JsonVal :=
  match r.jsonBody with
  | none => .strV (defaultErrorMessage r)
  | some .nullV => .strV (defaultErrorMessage r)
  | some v =>
      jsOrElse (getField v "detail")
        (jsOrElse (getField v "message") (.strV (defaultErrorMessage r)))

/-- The outcome of `handleResponse`: a resolved value, a thrown `ApiError`
(message, status code, parsed error body if any), or the rejection of
`response.json()` on the ok path. -/
inductive FetchResult where
  | ok (v : JsonVal)
  | apiError (message : JsonVal) (status : Nat) (data : Option JsonVal)
  | jsonParseFailure

/-- `handleResponse` from `lib/api.ts`, branch for branch. -/
def handleResponse (r : HttpResponse) : FetchResult :=
  if !r.ok then
    .apiError (selectedErrorMessage r) r.status r.jsonBody
  else if r.status == 204 then
    .ok (.objV [])
  else
    match r.jsonBody with
    | some v => .ok v
    | none => .jsonParseFailure

/-- No adjacent pair `'t'`,`'u'` occurs in the character list — the separator
used to show that `status=` (which contains the pair) is absent from an
endpoint built only from the fixed query keys and decimal digits. -/
def noTU : List Char → Bool
  | c1 :: c2 :: rest => !(c1 == 't' && c2 == 'u') && noTU (c2 :: rest)
  | _ => true

/-! ## Orchestrator state machine and chunking engine

These are backend pipeline code with no source under the repository
snapshot; they are modelled from the spec. -/

/-- Modelled from the spec: the outcome of the stage the orchestrator runs
next — success, rejection by the content analyzer (meaningful only after
`analyzing_content`, §4.1 early exit), or an unrecoverable stage error
(failure policy, §4.1). -/
inductive StageOutcome where
  | success
  | reject
  | failure
deriving DecidableEq, Fintype, Repr

/-- Modelled from the spec (§4.1 state machine): the status transition the
orchestrator's `process` performs from a given status on a given stage
outcome. Terminal statuses (`completed`, `failed`, `filtered_out`) admit no
transition — an operator-triggered retry resets status outside `process` and
is not a stage transition. -/
def nextStatus : DocumentStatus → StageOutcome → Option DocumentStatus
  | .uploaded, .success => some .detecting_type
  | .detecting_type, .success => some .extracting_blocks
  | .extracting_blocks, .success => some .classifying
  | .classifying, .success => some .analyzing_content
  | .analyzing_content, .success => some .chunking
  | .analyzing_content, .reject => some .filtered_out
  | .chunking, .success => some .summarizing
  | .summarizing, .success => some .completed
  | .uploaded, .failure => some .failed
  | .detecting_type, .failure => some .failed
  | .extracting_blocks, .failure => some .failed
  | .classifying, .failure => some .failed
  | .analyzing_content, .failure => some .failed
  | .chunking, .failure => some .failed
  | .summarizing, .failure => some .failed
  | _, _ => none

/-- The edge set of the spec's §4.1 status graph: the forward chain with the
`filtered_out` early exit, plus `failed` from every non-terminal status. -/
def specEdges : List (DocumentStatus × DocumentStatus) :=
  [(.uploaded, .detecting_type), (.detecting_type, .extracting_blocks),
   (.extracting_blocks, .classifying), (.classifying, .analyzing_content),
   (.analyzing_content, .chunking), (.analyzing_content, .filtered_out),
   (.chunking, .summarizing), (.summarizing, .completed),
   (.uploaded, .failed), (.detecting_type, .failed),
   (.extracting_blocks, .failed), (.classifying, .failed),
   (.analyzing_content, .failed), (.chunking, .failed),
   (.summarizing, .failed)]

/-- The error taxonomy of spec §7. -/
inductive PipelineError where
  | unsupportedFormat
  | capabilityError
  | storeError
  | validationError
  | budgetExceeded
deriving DecidableEq, Repr

/-- Block kind hints of the Blocks-document schema (spec §3:
"header/footer/paragraph/table/etc."). -/
inductive BlockKind where
  | header
  | footer
  | paragraph
  | table
  | other
deriving DecidableEq, Repr

/-- A block of the normalized Blocks document (position and style metadata
carry no constraint in the chunking invariants and are not modelled). -/
structure Block where
  text : String
  kind_hint : BlockKind
deriving DecidableEq, Repr

/-- An ordered page of blocks. -/
structure Page where
  blocks : List Block
deriving DecidableEq, Repr

/-- The versioned Blocks document: ordered pages of ordered blocks. -/
structure BlocksDocument where
  pages : List Page
deriving DecidableEq, Repr

/-- A produced chunk: stable index plus text (block range, method tag and
vector pointer carry no constraint in the round-trip invariants). -/
structure Chunk where
  index : Nat
  text : String
deriving DecidableEq, Repr

/-- Whitespace for word counting. -/
def isSpaceChar (c : Char) : Bool :=
  c == ' ' || c == '\n' || c == '\t' || c == '\r'

/-- Number of maximal non-whitespace runs, tracking whether a word is open. -/
def wordCountAux : List Char → Bool → Nat
  | [], _ => 0
  | c :: cs, inWord =>
      if isSpaceChar c = true then wordCountAux cs false
      else (if inWord then 0 else 1) + wordCountAux cs true

/-- The word count of a chunk text. -/
def wordCount (s : String) : Nat := wordCountAux s.data false

/-- The text contains at least one non-whitespace character. -/
def hasWord (s : String) : Bool := s.data.any fun c => !(isSpaceChar c)

/-- Concatenation of a list of texts, in order. -/
def concatTexts : List String → String
  | [] => ""
  | t :: ts => t ++ concatTexts ts

/-- Modelled from the spec (§4.4): the body-block texts of a Blocks document
— every block in page order whose kind hint is not header or footer. -/
def bodyTexts (d : BlocksDocument) : List String :=
  (((d.pages.map Page.blocks).flatten.filter
      fun b => !(b.kind_hint == .header) && !(b.kind_hint == .footer)).map Block.text)

/-- The filtered body text: headers/footers removed, remaining text in
source order. -/
def filteredBodyText (d : BlocksDocument) : String :=
  concatTexts (bodyTexts d)

/-- Modelled from the spec (§4.4): greedy grouping of consecutive body-block
texts into chunk texts. A chunk is emitted once the accumulated text reaches
the size bound, holds at least one word, and some later block still has a
word (so a trailing wordless run is absorbed into the final chunk); the
remainder after the last block becomes the final chunk. -/
def groupBlocks (maxSize : Nat) : List String → String → List String
  | [], acc => if acc == "" then [] else [acc]
  | t :: ts, acc =>
      if maxSize ≤ (acc ++ t).length ∧ hasWord (acc ++ t) = true
          ∧ ts.any hasWord = true then
        (acc ++ t) :: groupBlocks maxSize ts ""
      else
        groupBlocks maxSize ts (acc ++ t)

/-- Chunk records from chunk texts, with indexes counting up from `i`. -/
def indexChunks : Nat → List String → List Chunk
  | _, [] => []
  | i, t :: ts => ⟨i, t⟩ :: indexChunks (i + 1) ts

/-- Modelled from the spec: `chunk(BlocksDocument, max_chunk_size)` (§4.4).
A document whose body holds no word at all can only yield an empty or
word-free chunk set, which §7 classes as a `ValidationError` ("pipeline
invariant violated, e.g., empty chunk set"); otherwise the greedy grouping
of the body texts is returned as the ordered chunk set. -/
def chunkDocument (d : BlocksDocument) (maxSize : Nat) :
    Except PipelineError (List Chunk) :=
  if (bodyTexts d).any hasWord = true then
    .ok (indexChunks 0 (groupBlocks maxSize (bodyTexts d) ""))
  else
    .error .validationError

/-! ## Theorems -/

/-- C1: the set of document status values exposed to consumers is exactly the
ten spec-listed strings — every enum member's value is in the list, every
listed string is some member's value, and there are no duplicates on either
side. -/
theorem C1_status_value_set :
    DocumentStatus.all.map DocumentStatus.value = specStatusValues
    ∧ (∀ s : DocumentStatus, s ∈ DocumentStatus.all)
    ∧ specStatusValues.Nodup := by
  refine ⟨rfl, fun s => by cases s <;> decide, by decide⟩

/-- C4: a document is absorbing (no longer processing) exactly when its status
is `completed`, `failed` or `filtered_out`: the queue's still-processing
condition (driving the 5-second auto-refresh) holds iff the status is none of
the three, and the per-row spinner condition is the very same predicate. -/
theorem C4_still_processing_iff_not_absorbing :
    ∀ s : DocumentStatus,
      (hasProcessingCond s = true ↔ ¬ isAbsorbingStatus s)
      ∧ processingSpinnerCond s = hasProcessingCond s := by
  intro s
  cases s <;> exact ⟨by decide, rfl⟩

/-- C10: `formatFileSize` picks unit `B` exactly below 1024 bytes, `KB`
exactly on `[1024, 1048576)`, and `MB` exactly from 1048576 up, so the three
units partition the non-negative byte counts into contiguous ranges. -/
theorem C10_file_size_unit_partition :
    ∀ bytes : Nat,
      (formatFileSizeUnit bytes = "B" ↔ bytes < 1024)
      ∧ (formatFileSizeUnit bytes = "KB" ↔ 1024 ≤ bytes ∧ bytes < 1048576)
      ∧ (formatFileSizeUnit bytes = "MB" ↔ 1048576 ≤ bytes) := by
  intro bytes
  unfold formatFileSizeUnit
  by_cases h1 : bytes < 1024
  · simp only [if_pos h1]
    refine ⟨by simp [h1], ?_, ?_⟩
    · constructor
      · intro h; exact absurd h (by decide)
      · intro h; omega
    · constructor
      · intro h; exact absurd h (by decide)
      · intro h; omega
  · simp only [if_neg h1]
    by_cases h2 : bytes < 1024 * 1024
    · simp only [if_pos h2]
      refine ⟨?_, ?_, ?_⟩
      · constructor
        · intro h; exact absurd h (by decide)
        · intro h; omega
      · constructor
        · intro _; omega
        · intro _; trivial
      · constructor
        · intro h; exact absurd h (by decide)
        · intro h; omega
    · simp only [if_neg h2]
      refine ⟨?_, ?_, ?_⟩
      · constructor
        · intro h; exact absurd h (by decide)
        · intro h; omega
      · constructor
        · intro h; exact absurd h (by decide)
        · intro h; omega
      · constructor
        · intro _; omega
        · intro _; trivial

/-- C3 (counterexample): it is not the case that every document's
`processing_error` value lies in the spec's "null or {stage, message} record"
value space — the source type stores a bare string, witnessed at a document
whose field holds the plain string "Chunking failed: boom". -/
theorem C3_counterexample :
    ¬ (∀ d : Document, isSpecProcessingErrorVal (errorFieldVal d) = true) := by
  intro h
  have hbad := h (mkDoc .failed (some "Chunking failed: boom") none)
  simp [mkDoc, errorFieldVal, isSpecProcessingErrorVal] at hbad

/-- C3 (amended): for every document, `processing_error` is either null or a
bare string — its value always lies in the `string | null` value space the
frontend type declares, it is null exactly when the field is none, and it is
never a structured `{stage, message}` record. -/
theorem C3_processing_error_nullable_string :
    ∀ d : Document,
      isCodeProcessingErrorVal (errorFieldVal d) = true
      ∧ (errorFieldVal d = .null ↔ d.processing_error = none)
      ∧ (∀ stage message : String, errorFieldVal d ≠ .record stage message) := by
  intro d
  match hd : d.processing_error with
  | none =>
      refine ⟨?_, ?_, ?_⟩ <;> simp [errorFieldVal, hd, isCodeProcessingErrorVal]
  | some s =>
      refine ⟨?_, ?_, ?_⟩ <;> simp [errorFieldVal, hd, isCodeProcessingErrorVal]

/-- C6 (counterexample): the claim "for every document whose
`processing_error` is non-null the queue renders that error text" fails at a
document whose `processing_error` is the empty string: non-null, but falsy in
JS, so the error box is not rendered. -/
theorem C6_counterexample :
    ¬ (getStatusLabel .failed = "Failed"
       ∧ (∀ s : DocumentStatus, getStatusColor s = .error ↔ s = .failed)
       ∧ (∀ d : Document, d.processing_error ≠ none →
            shownErrorText d = d.processing_error)) := by
  intro h
  have hbad := h.2.2 (mkDoc .failed (some "") none) (by simp [mkDoc])
  simp [mkDoc, shownErrorText, jsTruthyStr] at hbad

/-- C6 (amended): document failure surfaces as a human-readable error —
`getStatusLabel` maps `failed` to the non-empty label "Failed",
`getStatusColor` returns `error` for `failed` and no other status, and the
queue renders the error text of every document whose `processing_error` is
non-null and non-empty. -/
theorem C6_failed_surfaces_error :
    getStatusLabel .failed = "Failed"
    ∧ "Failed" ≠ ""
    ∧ (∀ s : DocumentStatus, getStatusColor s = .error ↔ s = .failed)
    ∧ (∀ (d : Document) (s : String), d.processing_error = some s → s ≠ "" →
        shownErrorText d = some s) := by
  refine ⟨rfl, by decide, fun s => by cases s <;> simp [getStatusColor], ?_⟩
  intro d s hs hne
  simp [shownErrorText, jsTruthyStr, hs, hne]

/-- C6 (witness): the amended theorem applied at a concrete failed document
with a non-empty error string. -/
theorem C6_witness :
    (mkDoc .failed (some "boom") none).processing_error = some "boom"
    ∧ "boom" ≠ ""
    ∧ shownErrorText (mkDoc .failed (some "boom") none) = some "boom" :=
  ⟨rfl, by decide,
    C6_failed_surfaces_error.2.2.2 (mkDoc .failed (some "boom") none) "boom" rfl
      (by decide)⟩

/-- C7 (counterexample): the claim "the queue renders the filter reasoning
exactly when status is `filtered_out` and `filter_reasoning` is non-null"
fails at a filtered-out document whose reasoning is the empty string:
non-null, but falsy in JS, so the reasoning box is not rendered. -/
theorem C7_counterexample :
    ¬ (getStatusColor .filtered_out = .neutral
       ∧ (∀ d : Document, rendersFilterReasoning d = true ↔
            (d.status = .filtered_out ∧ d.filter_reasoning ≠ none))) := by
  intro h
  have hbad := (h.2 (mkDoc .filtered_out none (some ""))).mpr
    ⟨rfl, by simp [mkDoc]⟩
  simp [mkDoc, rendersFilterReasoning, jsTruthyStr] at hbad

/-- C7 (amended): `filtered_out` is not presented as an error —
`getStatusColor` maps it to `neutral`, never `error`, and the queue renders
the analyzer's filter reasoning exactly when the status is `filtered_out` and
`filter_reasoning` is non-null and non-empty. -/
theorem C7_filtered_out_not_error :
    getStatusColor .filtered_out = .neutral
    ∧ getStatusColor .filtered_out ≠ .error
    ∧ (∀ d : Document, rendersFilterReasoning d = true ↔
        (d.status = .filtered_out ∧ ∃ s, d.filter_reasoning = some s ∧ s ≠ "")) := by
  refine ⟨rfl, by decide, ?_⟩
  intro d
  unfold rendersFilterReasoning jsTruthyStr
  match hr : d.filter_reasoning with
  | none =>
      simp
  | some s =>
      simp only [Bool.and_eq_true, Bool.not_eq_true', beq_eq_false_iff_ne, beq_iff_eq]
      constructor
      · rintro ⟨h1, h2⟩
        exact ⟨h2, s, rfl, h1⟩
      · rintro ⟨hst, t, ht, hne⟩
        obtain rfl := Option.some_inj.mp ht
        exact ⟨hne, hst⟩

/-! ### Helper lemmas: characters, digit strings and the `tu`-pair separator -/

theorem str_ext {a b : String} (h : a.data = b.data) : a = b := by
  cases a; cases b; exact congrArg String.mk h

theorem digitChar_isDigit (d : Nat) : (digitChar d).isDigit = true := by
  unfold digitChar
  repeat' split
  all_goals decide

theorem natCharsAux_digits :
    ∀ (fuel n : Nat), ∀ c ∈ natCharsAux fuel n, c.isDigit = true := by
  intro fuel
  induction fuel with
  | zero => intro n c hc; simp [natCharsAux] at hc
  | succ f ih =>
      intro n c hc
      unfold natCharsAux at hc
      by_cases hn : n < 10
      · simp [hn] at hc
        subst hc
        exact digitChar_isDigit n
      · simp [hn] at hc
        rcases hc with hc | hc
        · exact ih (n / 10) c hc
        · subst hc
          exact digitChar_isDigit (n % 10)

theorem isDigit_ne_tu {c : Char} (h : c.isDigit = true) :
    (c == 't') = false ∧ (c == 'u') = false := by
  refine ⟨?_, ?_⟩ <;>
    · rw [beq_eq_false_iff_ne]
      rintro rfl
      exact absurd h (by decide)

theorem noTU_tail {c : Char} {l : List Char} (h : noTU (c :: l) = true) :
    noTU l = true := by
  cases l with
  | nil => rfl
  | cons d r =>
      unfold noTU at h
      exact (Bool.and_eq_true _ _ ▸ h).2

theorem noTU_cons_of_false {c : Char} {l : List Char} (h : noTU l = false) :
    noTU (c :: l) = false := by
  cases l with
  | nil => simp [noTU] at h
  | cons d r =>
      unfold noTU
      rw [h, Bool.and_false]

theorem noTU_append_tu (x y : List Char) : noTU (x ++ 't' :: 'u' :: y) = false := by
  induction x with
  | nil => simp [noTU]
  | cons c x ih =>
      rw [List.cons_append]
      exact noTU_cons_of_false ih

theorem noTU_append {x y : List Char} (hx : noTU x = true) (hy : noTU y = true)
    (hhead : ∀ h, y.head? = some h → (h == 'u') = false) :
    noTU (x ++ y) = true := by
  induction x with
  | nil => simpa using hy
  | cons c x ih =>
      have hxy : noTU (x ++ y) = true := ih (noTU_tail hx)
      rw [List.cons_append]
      cases hshape : x ++ y with
      | nil => rfl
      | cons d r =>
          unfold noTU
          rw [hshape] at hxy
          rw [Bool.and_eq_true]
          refine ⟨?_, hxy⟩
          cases x with
          | nil =>
              have hd : y.head? = some d := by
                simp only [List.nil_append] at hshape
                rw [hshape]
                rfl
              have hu := hhead d hd
              simp [hu]
          | cons e x' =>
              have hde : e = d := by
                simp only [List.cons_append, List.cons.injEq] at hshape
                exact hshape.1
              unfold noTU at hx
              have h1 := (Bool.and_eq_true _ _ ▸ hx).1
              rwa [hde] at h1

theorem noTU_digits {l : List Char} (hl : ∀ c ∈ l, c.isDigit = true) :
    noTU l = true := by
  induction l with
  | nil => rfl
  | cons c l ih =>
      cases l with
      | nil => rfl
      | cons d r =>
          unfold noTU
          rw [Bool.and_eq_true]
          refine ⟨?_, ih fun e he => hl e (List.mem_cons_of_mem _ he)⟩
          have hc := (isDigit_ne_tu (hl c (by simp))).1
          simp [hc]

theorem noTU_natStr (n : Nat) : noTU (natStr n).data = true :=
  noTU_digits fun c hc => natCharsAux_digits (n + 1) n c hc

theorem natStr_head_ne_u (n : Nat) :
    ∀ h, (natStr n).data.head? = some h → (h == 'u') = false := by
  intro h hh
  have hmem : h ∈ (natStr n).data := by
    cases hd : (natStr n).data with
    | nil => rw [hd] at hh; simp at hh
    | cons a t =>
        rw [hd] at hh
        simp only [List.head?_cons, Option.some_inj] at hh
        subst hh
        simp
  exact (isDigit_ne_tu (natCharsAux_digits (n + 1) n h hmem)).2

theorem head_ne_u_of_amp (s : String) (hs : s.data.head? = some '&') :
    ∀ h, s.data.head? = some h → (h == 'u') = false := by
  intro h hh
  rw [hs] at hh
  obtain rfl := Option.some_inj.mp hh
  decide

theorem noTU_listEndpointBase (caseId limit offset : Nat) :
    noTU (listEndpointBase caseId limit offset).data = true := by
  unfold listEndpointBase
  simp only [String.data_append]
  have h1 : noTU ("/documents/?case_id=" : String).data = true := by decide
  have h2 := noTU_append h1 (noTU_natStr caseId) (natStr_head_ne_u caseId)
  have h3 := noTU_append h2 (by decide : noTU ("&limit=" : String).data = true)
    (head_ne_u_of_amp "&limit=" rfl)
  have h4 := noTU_append h3 (noTU_natStr limit) (natStr_head_ne_u limit)
  have h5 := noTU_append h4 (by decide : noTU ("&offset=" : String).data = true)
    (head_ne_u_of_amp "&offset=" rfl)
  exact noTU_append h5 (noTU_natStr offset) (natStr_head_ne_u offset)

theorem containsStr_append_right {nd h : String} (t : String)
    (hc : containsStr nd h) : containsStr nd (h ++ t) := by
  obtain ⟨p, q, rfl⟩ := hc
  exact ⟨p, q ++ t, by simp [String.append_assoc]⟩

theorem base_contains_case_id (caseId limit offset : Nat) :
    containsStr ("case_id=" ++ natStr caseId) (listEndpointBase caseId limit offset) := by
  refine ⟨"/documents/?", "&limit=" ++ natStr limit ++ "&offset=" ++ natStr offset, ?_⟩
  apply str_ext
  have hsp : ("/documents/?case_id=" : String).data
      = ("/documents/?" : String).data ++ ("case_id=" : String).data := by decide
  simp only [listEndpointBase, String.data_append, hsp]
  simp

theorem base_contains_limit (caseId limit offset : Nat) :
    containsStr ("&limit=" ++ natStr limit) (listEndpointBase caseId limit offset) := by
  refine ⟨"/documents/?case_id=" ++ natStr caseId, "&offset=" ++ natStr offset, ?_⟩
  apply str_ext
  simp only [listEndpointBase, String.data_append]
  simp

theorem base_contains_offset (caseId limit offset : Nat) :
    containsStr ("&offset=" ++ natStr offset) (listEndpointBase caseId limit offset) := by
  refine ⟨"/documents/?case_id=" ++ natStr caseId ++ "&limit=" ++ natStr limit, "", ?_⟩
  apply str_ext
  have hnil : ("" : String).data = [] := by decide
  simp only [listEndpointBase, String.data_append, hnil]
  simp

theorem not_containsStr_status_base (caseId limit offset : Nat) :
    ¬ containsStr "status=" (listEndpointBase caseId limit offset) := by
  rintro ⟨p, q, hpq⟩
  have hT := noTU_listEndpointBase caseId limit offset
  have hs : ("status=" : String).data = ['s', 't', 'a', 't', 'u', 's', '='] := by decide
  have hdata : (listEndpointBase caseId limit offset).data
      = (p.data ++ ['s', 't', 'a']) ++ 't' :: 'u' :: ('s' :: '=' :: q.data) := by
    rw [hpq]
    simp only [String.data_append, hs]
    simp
  rw [hdata, noTU_append_tu] at hT
  exact absurd hT (by decide)

/-- C8 (amended): every document-list endpoint is namespaced by a case id —
for all arguments, the endpoint contains the `case_id`, `limit` and `offset`
query parameters with their values, contains a `status` parameter exactly
when a non-empty status argument was supplied (JS truthiness of `if (status)`
drops both `undefined` and the empty string), and the declared defaults are
`limit = 100`, `offset = 0`. -/
theorem C8_list_endpoint_query_params :
    ∀ (caseId limit offset : Nat) (status : Option String),
      containsStr ("case_id=" ++ natStr caseId) (listEndpoint caseId status limit offset)
      ∧ containsStr ("&limit=" ++ natStr limit) (listEndpoint caseId status limit offset)
      ∧ containsStr ("&offset=" ++ natStr offset) (listEndpoint caseId status limit offset)
      ∧ (containsStr "status=" (listEndpoint caseId status limit offset) ↔
          ∃ s, status = some s ∧ s ≠ "")
      ∧ listEndpointDefaults caseId status = listEndpoint caseId status 100 0 := by
  intro caseId limit offset status
  have hc1 := base_contains_case_id caseId limit offset
  have hc2 := base_contains_limit caseId limit offset
  have hc3 := base_contains_offset caseId limit offset
  cases status with
  | none =>
      refine ⟨hc1, hc2, hc3, ?_, rfl⟩
      constructor
      · intro hc
        exact absurd hc (not_containsStr_status_base _ _ _)
      · rintro ⟨s, hs, -⟩
        exact Option.noConfusion hs
  | some s =>
      by_cases hse : (s == "") = true
      · have hs0 : s = "" := by rwa [beq_iff_eq] at hse
        have he : listEndpoint caseId (some s) limit offset
            = listEndpointBase caseId limit offset := by
          simp [listEndpoint, hse]
        rw [he]
        refine ⟨hc1, hc2, hc3, ?_, rfl⟩
        constructor
        · intro hc
          exact absurd hc (not_containsStr_status_base _ _ _)
        · rintro ⟨t, ht, hne⟩
          obtain rfl := Option.some_inj.mp ht
          exact absurd hs0 hne
      · have he : listEndpoint caseId (some s) limit offset
            = listEndpointBase caseId limit offset ++ "&status=" ++ s := by
          simp [listEndpoint, hse]
        rw [he]
        refine ⟨containsStr_append_right s (containsStr_append_right "&status=" hc1),
          containsStr_append_right s (containsStr_append_right "&status=" hc2),
          containsStr_append_right s (containsStr_append_right "&status=" hc3),
          ?_, rfl⟩
        constructor
        · intro _
          refine ⟨s, rfl, fun h0 => hse ?_⟩
          rw [h0]
          decide
        · intro _
          refine ⟨listEndpointBase caseId limit offset ++ "&", s, ?_⟩
          apply str_ext
          have hsp : ("&status=" : String).data = '&' :: ("status=" : String).data := by
            decide
          have hamp : ("&" : String).data = ['&'] := by decide
          simp only [String.data_append, hsp, hamp]
          simp

/-- C8 (counterexample): the claim "the endpoint contains the status
parameter iff a status argument was supplied" fails at `status = some ""` —
the argument is supplied (non-undefined) and namespaced parameters are built,
but `if (status)` treats the empty string as falsy, so no `status=` substring
appears in the endpoint. -/
theorem C8_counterexample :
    ¬ (∀ (caseId limit offset : Nat) (status : Option String),
         containsStr "status=" (listEndpoint caseId status limit offset) ↔
           status ≠ none) := by
  intro h
  have hbad := (h 1 100 0 (some "")).mpr (by simp)
  have he : listEndpoint 1 (some "") 100 0 = listEndpointBase 1 100 0 := by
    simp [listEndpoint]
  rw [he] at hbad
  exact not_containsStr_status_base 1 100 0 hbad

/-- C9 (counterexample): the claim "for ok responses it returns an empty
object exactly when the status is 204 and the parsed JSON body otherwise"
fails at an ok status-200 response whose body parses to the empty object —
the empty object is returned although the status is not 204. -/
theorem C9_counterexample :
    ¬ ((∀ r : HttpResponse,
          (∃ m d, handleResponse r = .apiError m r.status d) ↔ r.ok = false)
       ∧ (∀ r : HttpResponse, r.ok = false →
            handleResponse r = .apiError (selectedErrorMessage r) r.status r.jsonBody)
       ∧ (∀ r : HttpResponse, r.ok = true →
            (handleResponse r = .ok (.objV []) ↔ r.status = 204)
            ∧ (r.status ≠ 204 → ∃ v, r.jsonBody = some v ∧ handleResponse r = .ok v))) := by
  rintro ⟨-, -, h3⟩
  have hbad := ((h3 ⟨true, 200, "OK", some (.objV [])⟩ rfl).1).mp rfl
  exact absurd hbad (by decide)

/-- C9 (amended): `handleResponse` throws an `ApiError` iff the response is
not ok, carrying the response's status and the first truthy value among the
body's `detail` field, the body's `message` field, and the fallback string
`HTTP <status>: <statusText>` (which also survives an unparseable or `null`
body); for ok responses it returns the empty object when the status is 204,
the parsed JSON body when one exists, and otherwise propagates the JSON
parse failure (which is not an `ApiError`). -/
theorem C9_handle_response :
    (∀ r : HttpResponse,
       (∃ m d, handleResponse r = .apiError m r.status d) ↔ r.ok = false)
    ∧ (∀ r : HttpResponse, r.ok = false →
         handleResponse r = .apiError (selectedErrorMessage r) r.status r.jsonBody)
    ∧ (∀ (r : HttpResponse) (v d : JsonVal), r.jsonBody = some v →
         getField v "detail" = some d → jsTruthy d = true →
         selectedErrorMessage r = d)
    ∧ (∀ (r : HttpResponse) (v m : JsonVal), r.jsonBody = some v →
         (∀ d, getField v "detail" = some d → jsTruthy d = false) →
         getField v "message" = some m → jsTruthy m = true →
         selectedErrorMessage r = m)
    ∧ (∀ r : HttpResponse,
         (∀ v, r.jsonBody = some v →
           (∀ d, getField v "detail" = some d → jsTruthy d = false)
           ∧ (∀ m, getField v "message" = some m → jsTruthy m = false)) →
         selectedErrorMessage r = .strV (defaultErrorMessage r))
    ∧ (∀ r : HttpResponse, r.ok = true →
         (r.status = 204 → handleResponse r = .ok (.objV []))
         ∧ (r.status ≠ 204 → ∀ v, r.jsonBody = some v → handleResponse r = .ok v)
         ∧ (r.status ≠ 204 → r.jsonBody = none →
             handleResponse r = .jsonParseFailure)) := by
  refine ⟨?_, ?_, ?_, ?_, ?_, ?_⟩
  · intro r
    constructor
    · rintro ⟨m, d, hm⟩
      cases hr : r.ok with
      | false => rfl
      | true =>
          exfalso
          by_cases h204 : (r.status == 204) = true
          · simp [handleResponse, hr, h204] at hm
          · cases hb : r.jsonBody with
            | none => simp [handleResponse, hr, h204, hb] at hm
            | some v => simp [handleResponse, hr, h204, hb] at hm
    · intro hok
      exact ⟨selectedErrorMessage r, r.jsonBody, by simp [handleResponse, hok]⟩
  · intro r hok
    simp [handleResponse, hok]
  · intro r v d hb hd htr
    cases v with
    | nullV => simp [getField] at hd
    | boolV b => simp [getField] at hd
    | numV n => simp [getField] at hd
    | strV s => simp [getField] at hd
    | arrV elems => simp [getField] at hd
    | objV fields => simp [selectedErrorMessage, hb, jsOrElse, hd, htr]
  · intro r v m hb hdf hm htr
    cases v with
    | nullV => simp [getField] at hm
    | boolV b => simp [getField] at hm
    | numV n => simp [getField] at hm
    | strV s => simp [getField] at hm
    | arrV elems => simp [getField] at hm
    | objV fields =>
        cases hd : getField (.objV fields) "detail" with
        | none => simp [selectedErrorMessage, hb, jsOrElse, hd, hm, htr]
        | some d =>
            have hfd := hdf d hd
            simp [selectedErrorMessage, hb, jsOrElse, hd, hfd, hm, htr]
  · intro r h
    cases hb : r.jsonBody with
    | none => simp [selectedErrorMessage, hb]
    | some v =>
        cases v with
        | nullV => simp [selectedErrorMessage, hb]
        | boolV b => simp [selectedErrorMessage, hb, jsOrElse, getField]
        | numV n => simp [selectedErrorMessage, hb, jsOrElse, getField]
        | strV s => simp [selectedErrorMessage, hb, jsOrElse, getField]
        | arrV elems => simp [selectedErrorMessage, hb, jsOrElse, getField]
        | objV fields =>
            obtain ⟨h1, h2⟩ := h (.objV fields) hb
            cases hd : getField (.objV fields) "detail" with
            | some d =>
                have hfd := h1 d hd
                cases hm : getField (.objV fields) "message" with
                | some m =>
                    have hfm := h2 m hm
                    simp [selectedErrorMessage, hb, jsOrElse, hd, hfd, hm, hfm]
                | none => simp [selectedErrorMessage, hb, jsOrElse, hd, hfd, hm]
            | none =>
                cases hm : getField (.objV fields) "message" with
                | some m =>
                    have hfm := h2 m hm
                    simp [selectedErrorMessage, hb, jsOrElse, hd, hm, hfm]
                | none => simp [selectedErrorMessage, hb, jsOrElse, hd, hm]
  · intro r hok
    refine ⟨?_, ?_, ?_⟩
    · intro h204
      simp [handleResponse, hok, h204]
    · intro h204 v hb
      have hne : (r.status == 204) = false := beq_eq_false_iff_ne.mpr h204
      simp [handleResponse, hok, hne, hb]
    · intro h204 hb
      have hne : (r.status == 204) = false := beq_eq_false_iff_ne.mpr h204
      simp [handleResponse, hok, hne, hb]

/-- C9 (witness): the amended theorem applied at a concrete non-ok response
whose body carries a truthy `detail` field. -/
theorem C9_witness :
    (HttpResponse.mk false 404 "Not Found"
        (some (.objV [("detail", JsonVal.strV "Document not found")]))).ok = false
    ∧ handleResponse (HttpResponse.mk false 404 "Not Found"
        (some (.objV [("detail", JsonVal.strV "Document not found")])))
      = .apiError (.strV "Document not found") 404
          (some (.objV [("detail", JsonVal.strV "Document not found")])) := by
  refine ⟨rfl, ?_⟩
  have h2 := C9_handle_response.2.1
    (HttpResponse.mk false 404 "Not Found"
      (some (.objV [("detail", JsonVal.strV "Document not found")]))) rfl
  have h3 := C9_handle_response.2.2.1
    (HttpResponse.mk false 404 "Not Found"
      (some (.objV [("detail", JsonVal.strV "Document not found")])))
    (.objV [("detail", JsonVal.strV "Document not found")])
    (.strV "Document not found") rfl rfl rfl
  rw [h2, h3]

/-- C2: spec-modelled orchestrator transitions follow exactly the §4.1
edges — every transition `process` performs is a spec edge, the absorbing
statuses `completed`, `failed` and `filtered_out` admit no transition for any
stage outcome (retry is an operator action outside `process`), and every spec
edge is realized by some stage outcome (so no stage is skipped and the
`filtered_out` early exit is the only branch). -/
theorem C2_transitions_follow_spec_edges :
    (∀ (s : DocumentStatus) (o : StageOutcome) (t : DocumentStatus),
        nextStatus s o = some t → (s, t) ∈ specEdges)
    ∧ (∀ o : StageOutcome,
        nextStatus .completed o = none ∧ nextStatus .failed o = none
        ∧ nextStatus .filtered_out o = none)
    ∧ (∀ p ∈ specEdges, ∃ o, nextStatus p.1 o = some p.2) := by
  refine ⟨by decide, by decide, by decide⟩

/-- C2 (witness): the transition theorem applied at the concrete edge
`uploaded → detecting_type`. -/
theorem C2_witness :
    nextStatus .uploaded .success = some .detecting_type
    ∧ (DocumentStatus.uploaded, DocumentStatus.detecting_type) ∈ specEdges :=
  ⟨rfl, C2_transitions_follow_spec_edges.1 .uploaded .success .detecting_type rfl⟩

/-! ### Helper lemmas for the chunking round trip -/

theorem hasWord_empty : hasWord "" = false := rfl

theorem hasWord_append (a b : String) :
    hasWord (a ++ b) = (hasWord a || hasWord b) := by
  simp [hasWord, String.data_append, List.any_append]

theorem hasWord_concatTexts_of_any {ts : List String} (h : ts.any hasWord = true) :
    hasWord (concatTexts ts) = true := by
  induction ts with
  | nil => simp at h
  | cons t ts ih =>
      show hasWord (t ++ concatTexts ts) = true
      rw [hasWord_append]
      simp only [List.any_cons, Bool.or_eq_true] at h
      rcases h with h | h
      · simp [h]
      · simp [ih h]

theorem concatTexts_groupBlocks (m : Nat) :
    ∀ (ts : List String) (acc : String),
      concatTexts (groupBlocks m ts acc) = acc ++ concatTexts ts := by
  intro ts
  induction ts with
  | nil =>
      intro acc
      by_cases h : (acc == "") = true
      · have h0 : acc = "" := by rwa [beq_iff_eq] at h
        simp [groupBlocks, h, concatTexts, h0]
      · simp [groupBlocks, h, concatTexts]
  | cons t ts ih =>
      intro acc
      show concatTexts (if m ≤ (acc ++ t).length ∧ hasWord (acc ++ t) = true
          ∧ ts.any hasWord = true then (acc ++ t) :: groupBlocks m ts ""
          else groupBlocks m ts (acc ++ t)) = acc ++ concatTexts (t :: ts)
      by_cases h : (m ≤ (acc ++ t).length ∧ hasWord (acc ++ t) = true
          ∧ ts.any hasWord = true)
      · rw [if_pos h]
        show (acc ++ t) ++ concatTexts (groupBlocks m ts "")
            = acc ++ (t ++ concatTexts ts)
        rw [ih ""]
        simp [String.append_assoc]
      · rw [if_neg h]
        rw [ih (acc ++ t)]
        show (acc ++ t) ++ concatTexts ts = acc ++ (t ++ concatTexts ts)
        rw [String.append_assoc]

theorem groupBlocks_mem_hasWord (m : Nat) :
    ∀ (ts : List String) (acc : String),
      hasWord (acc ++ concatTexts ts) = true →
      ∀ c ∈ groupBlocks m ts acc, hasWord c = true := by
  intro ts
  induction ts with
  | nil =>
      intro acc h c hc
      rw [show concatTexts [] = "" from rfl, hasWord_append, hasWord_empty,
        Bool.or_false] at h
      simp only [groupBlocks] at hc
      by_cases ha : (acc == "") = true
      · rw [if_pos ha] at hc
        simp at hc
      · rw [if_neg ha] at hc
        simp at hc
        subst hc
        exact h
  | cons t ts ih =>
      intro acc h c hc
      simp only [groupBlocks] at hc
      by_cases hcond : (m ≤ (acc ++ t).length ∧ hasWord (acc ++ t) = true
          ∧ ts.any hasWord = true)
      · rw [if_pos hcond] at hc
        rcases List.mem_cons.mp hc with rfl | hc'
        · exact hcond.2.1
        · refine ih "" ?_ c hc'
          simpa using hasWord_concatTexts_of_any hcond.2.2
      · rw [if_neg hcond] at hc
        refine ih (acc ++ t) ?_ c hc
        rw [show concatTexts (t :: ts) = t ++ concatTexts ts from rfl] at h
        rw [String.append_assoc]
        exact h

theorem wordCountAux_pos :
    ∀ l : List Char, l.any (fun c => !(isSpaceChar c)) = true →
      1 ≤ wordCountAux l false := by
  intro l
  induction l with
  | nil => intro h; simp at h
  | cons c cs ih =>
      intro h
      simp only [wordCountAux]
      by_cases hc : isSpaceChar c = true
      · rw [if_pos hc]
        apply ih
        simp only [List.any_cons, Bool.or_eq_true] at h
        rcases h with h | h
        · rw [hc] at h
          simp at h
        · exact h
      · rw [if_neg hc]
        simp

theorem wordCount_pos_of_hasWord {s : String} (h : hasWord s = true) :
    1 ≤ wordCount s :=
  wordCountAux_pos s.data h

theorem indexChunks_map_text :
    ∀ (i : Nat) (ts : List String), (indexChunks i ts).map Chunk.text = ts := by
  intro i ts
  induction ts generalizing i with
  | nil => rfl
  | cons t ts ih => simp [indexChunks, ih]

theorem indexChunks_length :
    ∀ (i : Nat) (ts : List String), (indexChunks i ts).length = ts.length := by
  intro i ts
  induction ts generalizing i with
  | nil => rfl
  | cons t ts ih => simp [indexChunks, ih]

theorem indexChunks_map_index :
    ∀ (i : Nat) (ts : List String),
      (indexChunks i ts).map Chunk.index = List.range' i ts.length := by
  intro i ts
  induction ts generalizing i with
  | nil => rfl
  | cons t ts ih =>
      show (i : Nat) :: (indexChunks (i + 1) ts).map Chunk.index
          = List.range' i (ts.length + 1)
      rw [ih (i + 1), List.range'_succ]

/-- C5 (spec-modelled): for any input Blocks document on which chunking
succeeds, concatenating the produced chunk texts in index order reconstructs
the filtered body text (headers/footers removed) with no gaps and no
duplication, every produced chunk has word count at least 1, and the chunk
indexes are exactly `0, 1, ...` in order. -/
theorem C5_chunk_concat_round_trip :
    ∀ (d : BlocksDocument) (maxSize : Nat) (cs : List Chunk),
      chunkDocument d maxSize = .ok cs →
      concatTexts (cs.map Chunk.text) = filteredBodyText d
      ∧ (∀ c ∈ cs, 1 ≤ wordCount c.text)
      ∧ cs.map Chunk.index = List.range cs.length := by
  intro d maxSize cs h
  unfold chunkDocument at h
  by_cases hw : (bodyTexts d).any hasWord = true
  · rw [if_pos hw] at h
    simp only [Except.ok.injEq] at h
    subst h
    refine ⟨?_, ?_, ?_⟩
    · rw [indexChunks_map_text, concatTexts_groupBlocks]
      simp [filteredBodyText]
    · intro c hc
      apply wordCount_pos_of_hasWord
      refine groupBlocks_mem_hasWord maxSize (bodyTexts d) "" ?_ c.text ?_
      · simpa using hasWord_concatTexts_of_any hw
      · rw [← indexChunks_map_text 0 (groupBlocks maxSize (bodyTexts d) "")]
        exact List.mem_map_of_mem Chunk.text hc
    · rw [indexChunks_map_index, indexChunks_length, List.range_eq_range']
  · rw [if_neg hw] at h
    exact Except.noConfusion h

/-- C5 (witness): the round-trip theorem applied to a concrete one-page
document with a header, two paragraphs and a footer, chunked at size 10. -/
theorem C5_witness :
    chunkDocument (BlocksDocument.mk [Page.mk
        [Block.mk "Page 1" .header, Block.mk "Hello world. " .paragraph,
         Block.mk "Second paragraph here." .paragraph, Block.mk "p. 1" .footer]]) 10
      = Except.ok [Chunk.mk 0 "Hello world. ", Chunk.mk 1 "Second paragraph here."]
    ∧ concatTexts ([Chunk.mk 0 "Hello world. ",
        Chunk.mk 1 "Second paragraph here."].map Chunk.text)
      = filteredBodyText (BlocksDocument.mk [Page.mk
        [Block.mk "Page 1" .header, Block.mk "Hello world. " .paragraph,
         Block.mk "Second paragraph here." .paragraph, Block.mk "p. 1" .footer]]) :=
  ⟨rfl,
    (C5_chunk_concat_round_trip (BlocksDocument.mk [Page.mk
        [Block.mk "Page 1" .header, Block.mk "Hello world. " .paragraph,
         Block.mk "Second paragraph here." .paragraph, Block.mk "p. 1" .footer]]) 10
      [Chunk.mk 0 "Hello world. ", Chunk.mk 1 "Second paragraph here."] rfl).1⟩

/-- C3 (witness): the amended theorem applied at a concrete document with a
plain string error. -/
theorem C3_witness :
    (mkDoc .failed (some "boom") none).processing_error = some "boom"
    ∧ errorFieldVal (mkDoc .failed (some "boom") none) ≠ .record "chunking" "boom" :=
  ⟨rfl, (C3_processing_error_nullable_string
    (mkDoc .failed (some "boom") none)).2.2 "chunking" "boom"⟩

/-- C4 (witness): the equivalence applied at the concrete status `uploaded`,
which is not absorbing and still counts as processing. -/
theorem C4_witness : hasProcessingCond .uploaded = true :=
  (C4_still_processing_iff_not_absorbing .uploaded).1.mpr (by decide)

/-- C7 (witness): the amended equivalence applied at a concrete filtered-out
document with non-empty reasoning. -/
theorem C7_witness :
    rendersFilterReasoning (mkDoc .filtered_out none (some "Spam notice")) = true :=
  (C7_filtered_out_not_error.2.2
      (mkDoc .filtered_out none (some "Spam notice"))).mpr
    ⟨rfl, "Spam notice", rfl, by decide⟩

/-- C8 (witness): the endpoint theorem applied at concrete arguments. -/
theorem C8_witness :
    containsStr ("case_id=" ++ natStr 7) (listEndpoint 7 (some "failed") 100 0) :=
  (C8_list_endpoint_query_params 7 100 0 (some "failed")).1

/-- C10 (witness): the unit partition applied at the concrete byte count
2048, which falls in the KB range. -/
theorem C10_witness : formatFileSizeUnit 2048 = "KB" :=
  (C10_file_size_unit_partition 2048).2.1.mpr ⟨by decide, by decide⟩

end LegalAnalyzer
